import Mathlib

/-!
Verification of the asana-cli core (internal/api/client.go) against its
design specification.  The Go code is shallowly embedded: pure fragments
(query construction, due-date filtering, summary aggregation, error-message
construction, JSON payload building) become Lean functions over explicit
inputs; the HTTP world (response status, body, parsed error envelope,
destination-file state) is passed in explicitly.  Machine integers are
modelled as Int/Nat (counters only increment and stay far from overflow).
-/

namespace Asana

/-! ## Calendar dates

Go code calls time.Now().Format("2006-01-02") and time.AddDate(0, 0, n).
The moment "now" is modelled as a day number: days elapsed since
0000-03-01 (proleptic Gregorian), so AddDate(0, 0, n) is addition of n.
civilFromDays is the standard civil-from-days conversion; formatDate
renders the zero-padded YYYY-MM-DD form of the Go layout "2006-01-02". -/

def civilFromDays (z : Nat) : Nat × Nat × Nat :=
  let era := z / 146097
  let doe := z % 146097
  let yoe := (doe - doe / 1460 + doe / 36524 - doe / 146096) / 365
  let y := yoe + era * 400
  let doy := doe - (365 * yoe + yoe / 4 - yoe / 100)
  let mp := (5 * doy + 2) / 153
  let d := doy - (153 * mp + 2) / 5 + 1
  let m := if mp < 10 then mp + 3 else mp - 9
  (if m ≤ 2 then y + 1 else y, m, d)

def padLeft (s : String) (w : Nat) : String :=
  if w ≤ s.length then s else String.mk (List.replicate (w - s.length) '0') ++ s

def formatDate (z : Nat) : String :=
  let c := civilFromDays z
  padLeft (toString c.1) 4 ++ "-" ++ padLeft (toString c.2.1) 2 ++ "-" ++
    padLeft (toString c.2.2) 2

/-! ## Go strings

Go compares strings byte-wise; on UTF-8 encodings byte order coincides with
code-point order, so the embedding compares the character lists. -/

def goCharsLt : List Char → List Char → Bool
  | [], [] => false
  | [], _ :: _ => true
  | _ :: _, [] => false
  | a :: as, b :: bs => if a < b then true else if b < a then false else goCharsLt as bs

def strLt (s t : String) : Bool := goCharsLt s.data t.data

/-! ## url.Values

Go's url.Values maps a key to a value list; the client only ever uses
Set, which replaces the key's value.  Encode sorts by key, so the map is
modelled as an association list where Set replaces the first binding of
the key (each key is bound at most once in this client) or appends. -/

def setParam : List (String × String) → String → String → List (String × String)
  | [], k, v => [(k, v)]
  | (k1, v1) :: rest, k, v =>
      if k1 = k then (k, v) :: rest else (k1, v1) :: setParam rest k v

def getParam : List (String × String) → String → Option String
  | [], _ => none
  | (k1, v1) :: rest, k => if k1 = k then some v1 else getParam rest k

/-! ## Task records and option bundles (client.go data model) -/

structure User where
  GID : String
  Name : String
  Email : String
deriving DecidableEq, Repr

structure Entity where
  GID : String
  Name : String
deriving DecidableEq, Repr

structure Task where
  GID : String
  Name : String
  Notes : String
  HTMLNotes : String
  Completed : Bool
  CompletedAt : String
  DueOn : String
  DueAt : String
  CreatedAt : String
  ModifiedAt : String
  Assignee : Option User
  Projects : List Entity
  Tags : List Entity
  Permalink : String
deriving DecidableEq, Repr

structure TaskListOptions where
  Project : String
  Assignee : String
  Tag : String
  Due : String
  IncludeCompleted : Bool
  Limit : Int
  SortBy : String
deriving DecidableEq, Repr

/-! ## Query construction (ListTasks, applyDueFilter, SearchTasks)

Each function below is the parameter-building portion of the identically
named method of client.go, with time.Now() passed in as the day number
now. -/

def applyDueFilter (now : Nat) (params : List (String × String)) (due : String) :
    List (String × String) :=
  let today := formatDate now
  let tomorrow := formatDate (now + 1)
  let weekEnd := formatDate (now + 7)
  match due with
  | "today" => setParam params "due_on" today
  | "tomorrow" => setParam params "due_on" tomorrow
  | "week" => setParam (setParam params "due_on.before" weekEnd) "due_on.after" today
  | "overdue" => setParam params "due_on.before" today
  | _ => setParam params "due_on" due

def listTasksParams (now : Nat) (opts : TaskListOptions) : List (String × String) :=
  let params : List (String × String) := []
  let params := if opts.Project ≠ "" then setParam params "projects.any" opts.Project else params
  let params := if opts.Assignee ≠ "" then setParam params "assignee.any" opts.Assignee else params
  let params := if opts.Tag ≠ "" then setParam params "tags.any" opts.Tag else params
  let params := if opts.Due ≠ "" then applyDueFilter now params opts.Due else params
  let params := if !opts.IncludeCompleted then setParam params "completed" "false" else params
  let params := if 0 < opts.Limit then setParam params "limit" (toString opts.Limit)
                else setParam params "limit" "100"
  let params := if opts.SortBy ≠ "" then
                  setParam (setParam params "sort_by" opts.SortBy) "sort_ascending" "true"
                else params
  let params := setParam params "is_subtask" "false"
  setParam params "opt_fields"
    "gid,name,completed,due_on,assignee,assignee.name,projects,projects.name,tags,tags.name,permalink_url"

def searchTasksParams (query : String) (limit : Int) : List (String × String) :=
  let params : List (String × String) := []
  let params := if query ≠ "" then setParam params "text" query else params
  let params := setParam params "completed" "false"
  let params := if 0 < limit then setParam params "limit" (toString limit)
                else setParam params "limit" "100"
  setParam params "opt_fields"
    "gid,name,completed,due_on,assignee,assignee.name,projects,projects.name,permalink_url"

/-! ## Summary aggregation (GetTaskSummary)

TaskSummary mirrors the Go struct; the map[string]int ByAssignee becomes
an association list where bump increments a key's count (inserting it at
count 1, as Go's m[k]++ does on a missing key). GetTaskSummary is the
aggregation loop of client.go's GetTaskSummary, taking the already
decoded first result page and today's formatted date as inputs. -/

structure TaskSummary where
  TotalTasks : Nat
  CompletedTasks : Nat
  OpenTasks : Nat
  OverdueTasks : Nat
  ByAssignee : List (String × Nat)
  Unassigned : Nat
deriving DecidableEq, Repr

def bump : List (String × Nat) → String → List (String × Nat)
  | [], k => [(k, 1)]
  | (k1, n) :: rest, k =>
      if k1 = k then (k1, n + 1) :: rest else (k1, n) :: bump rest k

def getCount (m : List (String × Nat)) (k : String) : Nat :=
  ((m.find? (fun p => p.1 = k)).map (fun p => p.2)).getD 0

def bucketSum (m : List (String × Nat)) : Nat := (m.map (fun p => p.2)).sum

def summaryStep (today : String) (s : TaskSummary) (task : Task) : TaskSummary :=
  let s := { s with TotalTasks := s.TotalTasks + 1 }
  let s :=
    if task.Completed then { s with CompletedTasks := s.CompletedTasks + 1 }
    else
      let s := { s with OpenTasks := s.OpenTasks + 1 }
      if task.DueOn != "" && strLt task.DueOn today then
        { s with OverdueTasks := s.OverdueTasks + 1 }
      else s
  match task.Assignee with
  | some u => { s with ByAssignee := bump s.ByAssignee u.Name }
  | none => { s with Unassigned := s.Unassigned + 1 }

def GetTaskSummary (today : String) (tasks : List Task) : TaskSummary :=
  tasks.foldl (summaryStep today) ⟨0, 0, 0, 0, [], 0⟩

/-! ## Transport error handling (doRequest, lines 64-72)

The status-code branch of doRequest: the response status, the raw body
and the outcome of json.Unmarshal into ErrorResponse (none when the body
does not parse; some entries otherwise) are explicit inputs.  The result
is the returned bytes or the message of the returned error. -/

structure ApiError where
  Message : String
  Help : String
deriving DecidableEq, Repr

def doRequestResult (statusCode : Nat) (respBody : String)
    (errResp : Option (List ApiError)) : Except String String :=
  if 400 ≤ statusCode then
    match errResp with
    | some (e :: _) =>
        .error ("API error (" ++ toString statusCode ++ "): " ++ e.Message)
    | _ => .error ("API error (" ++ toString statusCode ++ "): " ++ respBody)
  else .ok respBody

/-! ## Task updates (UpdateTask, CompleteTask, ReopenTask)

UpdateTaskOptions mirrors the Go struct of optional pointers.  UpdateTask
builds a map under the key "data" containing exactly the set fields;
json.Marshal renders maps with their keys sorted, which the renderer
below reproduces (string escaping follows Go's encoder: quote,
backslash, the common control escapes, \u00XX for other control bytes
and the HTML-safe escapes for angle brackets and ampersand). -/

structure UpdateTaskOptions where
  Name : Option String
  Notes : Option String
  Assignee : Option String
  DueOn : Option String
  Completed : Option Bool
deriving DecidableEq, Repr

inductive JPrim where
  | str : String → JPrim
  | bool : Bool → JPrim
deriving DecidableEq, Repr

def hexChar (n : Nat) : Char :=
  if n < 10 then Char.ofNat (48 + n) else Char.ofNat (87 + n)

def escapeChar (c : Char) : String :=
  if c = '"' then "\\\""
  else if c = '\\' then "\\\\"
  else if c = '\n' then "\\n"
  else if c = '\r' then "\\r"
  else if c = '\t' then "\\t"
  else if c = '<' then "\\u003c"
  else if c = '>' then "\\u003e"
  else if c = '&' then "\\u0026"
  else if c.toNat < 32 then
    "\\u00" ++ String.mk [hexChar (c.toNat / 16), hexChar (c.toNat % 16)]
  else String.singleton c

def quoteJson (s : String) : String :=
  "\"" ++ String.join (s.data.map escapeChar) ++ "\""

def renderPrim : JPrim → String
  | .str s => quoteJson s
  | .bool b => if b then "true" else "false"

def insertByKey (p : String × JPrim) :
    List (String × JPrim) → List (String × JPrim)
  | [] => [p]
  | q :: rest => if strLt q.1 p.1 then q :: insertByKey p rest else p :: q :: rest

def sortByKey : List (String × JPrim) → List (String × JPrim)
  | [] => []
  | p :: rest => insertByKey p (sortByKey rest)

def renderObj (l : List (String × JPrim)) : String :=
  "\x7b" ++
    String.intercalate ","
      ((sortByKey l).map (fun p => quoteJson p.1 ++ ":" ++ renderPrim p.2)) ++
    "\x7d"

def updateTaskData (opts : UpdateTaskOptions) : List (String × JPrim) :=
  let data : List (String × JPrim) := []
  let data := match opts.Name with
              | some v => data ++ [("name", .str v)]
              | none => data
  let data := match opts.Notes with
              | some v => data ++ [("notes", .str v)]
              | none => data
  let data := match opts.Assignee with
              | some v => data ++ [("assignee", .str v)]
              | none => data
  let data := match opts.DueOn with
              | some v => data ++ [("due_on", .str v)]
              | none => data
  match opts.Completed with
  | some v => data ++ [("completed", .bool v)]
  | none => data

def updateTaskPayload (opts : UpdateTaskOptions) : String :=
  "\x7b\"data\":" ++ renderObj (updateTaskData opts) ++ "\x7d"

def hasKey (l : List (String × JPrim)) (k : String) : Bool :=
  l.any (fun p => p.1 = k)

structure ApiRequest where
  method : String
  endpoint : String
  payload : String
deriving DecidableEq, Repr

def UpdateTaskRequest (taskGID : String) (opts : UpdateTaskOptions) : ApiRequest :=
  ⟨"PUT", "/tasks/" ++ taskGID, updateTaskPayload opts⟩

def CompleteTaskRequest (taskGID : String) : ApiRequest :=
  UpdateTaskRequest taskGID ⟨none, none, none, none, some true⟩

def ReopenTaskRequest (taskGID : String) : ApiRequest :=
  UpdateTaskRequest taskGID ⟨none, none, none, none, some false⟩

/-! ## Attachment download (DownloadAttachment)

The HTTP world is explicit: the GET response and the state of the
destination file (none when it does not exist) are inputs, and the
result carries the error message (if any) together with the destination
file's state afterwards.  os.Create runs only after both guards, so on
either error path the file state is returned untouched.  The request is
issued through http.Client.Get, which attaches no headers of its own; in
particular no Authorization header is set (doRequest's bearer token is
absent here). -/

structure Attachment where
  GID : String
  Name : String
  ResourceSubtype : String
  CreatedAt : String
  DownloadURL : String
  PermanentURL : String
  ViewURL : String
  Host : String
  Size : Int
  Parent : Option Entity
deriving DecidableEq, Repr

structure HttpResponse where
  statusCode : Nat
  body : String
deriving DecidableEq, Repr

structure HttpRequest where
  method : String
  url : String
  headers : List (String × String)
deriving DecidableEq, Repr

def downloadRequest (u : String) : HttpRequest := ⟨"GET", u, []⟩

structure DownloadResult where
  errMsg : Option String
  destFile : Option String
deriving DecidableEq, Repr

def DownloadAttachment (attachment : Attachment) (resp : HttpResponse)
    (dest : Option String) : DownloadResult :=
  if attachment.DownloadURL = "" then ⟨some "attachment has no download URL", dest⟩
  else if 400 ≤ resp.statusCode then
    ⟨some ("download failed with status " ++ toString resp.statusCode), dest⟩
  else ⟨none, some resp.body⟩

/-! ## Helper lemmas about the url.Values model -/

theorem getParam_setParam (ps : List (String × String)) (k v k' : String) :
    getParam (setParam ps k v) k' = if k' = k then some v else getParam ps k' := by
  induction ps with
  | nil =>
      by_cases h : k' = k <;> simp_all [setParam, getParam, eq_comm]
  | cons p rest ih =>
      rcases p with ⟨k1, v1⟩
      by_cases h1 : k1 = k <;> by_cases h2 : k' = k <;> by_cases h3 : k1 = k' <;>
        simp_all [setParam, getParam]

theorem getParam_applyDueFilter_ne (now : Nat) (ps : List (String × String))
    (due k : String) (h1 : k ≠ "due_on") (h2 : k ≠ "due_on.before")
    (h3 : k ≠ "due_on.after") :
    getParam (applyDueFilter now ps due) k = getParam ps k := by
  unfold applyDueFilter
  split <;> simp [getParam_setParam, h1, h2, h3]

/-! ## Helper lemmas about summary aggregation -/

theorem bucketSum_bump (m : List (String × Nat)) (k : String) :
    bucketSum (bump m k) = bucketSum m + 1 := by
  induction m with
  | nil => simp [bump, bucketSum]
  | cons p rest ih =>
      rcases p with ⟨k1, n⟩
      by_cases h : k1 = k <;> simp [bump, bucketSum, h] <;>
        simp [bucketSum] at ih <;> omega

theorem getCount_bump_self (m : List (String × Nat)) (k : String) :
    getCount (bump m k) k = getCount m k + 1 := by
  induction m with
  | nil => simp [bump, getCount, List.find?]
  | cons p rest ih =>
      rcases p with ⟨k1, n⟩
      by_cases h : k1 = k <;> simp_all [bump, getCount, List.find?]

theorem summaryStep_inv (today : String) (s : TaskSummary) (t : Task)
    (h1 : s.TotalTasks = s.OpenTasks + s.CompletedTasks)
    (h2 : s.OverdueTasks ≤ s.OpenTasks)
    (h3 : bucketSum s.ByAssignee + s.Unassigned = s.TotalTasks) :
    (summaryStep today s t).TotalTasks =
        (summaryStep today s t).OpenTasks + (summaryStep today s t).CompletedTasks ∧
    (summaryStep today s t).OverdueTasks ≤ (summaryStep today s t).OpenTasks ∧
    bucketSum (summaryStep today s t).ByAssignee + (summaryStep today s t).Unassigned =
        (summaryStep today s t).TotalTasks := by
  unfold summaryStep
  rcases t with ⟨_, _, _, _, compl, _, dueOn, _, _, _, assignee, _, _, _⟩
  cases compl <;> rcases assignee with _ | u <;>
    by_cases hd : (dueOn != "" && strLt dueOn today) = true <;>
      simp [hd, bucketSum_bump] <;> omega

/-! ## Claim theorems -/

/-- C1: for every list of task records, the summary computed by
GetTaskSummary satisfies TotalTasks = OpenTasks + CompletedTasks,
OverdueTasks ≤ OpenTasks, and the sum of all per-assignee bucket counts
plus Unassigned equals TotalTasks. -/
theorem getTaskSummary_invariants (today : String) (tasks : List Task) :
    (GetTaskSummary today tasks).TotalTasks =
        (GetTaskSummary today tasks).OpenTasks +
          (GetTaskSummary today tasks).CompletedTasks ∧
    (GetTaskSummary today tasks).OverdueTasks ≤
        (GetTaskSummary today tasks).OpenTasks ∧
    bucketSum (GetTaskSummary today tasks).ByAssignee +
          (GetTaskSummary today tasks).Unassigned =
        (GetTaskSummary today tasks).TotalTasks := by
  suffices h : ∀ s : TaskSummary,
      s.TotalTasks = s.OpenTasks + s.CompletedTasks →
      s.OverdueTasks ≤ s.OpenTasks →
      bucketSum s.ByAssignee + s.Unassigned = s.TotalTasks →
      (tasks.foldl (summaryStep today) s).TotalTasks =
          (tasks.foldl (summaryStep today) s).OpenTasks +
            (tasks.foldl (summaryStep today) s).CompletedTasks ∧
      (tasks.foldl (summaryStep today) s).OverdueTasks ≤
          (tasks.foldl (summaryStep today) s).OpenTasks ∧
      bucketSum (tasks.foldl (summaryStep today) s).ByAssignee +
            (tasks.foldl (summaryStep today) s).Unassigned =
          (tasks.foldl (summaryStep today) s).TotalTasks by
    exact h ⟨0, 0, 0, 0, [], 0⟩ rfl (Nat.le_refl 0) rfl
  induction tasks with
  | nil => intro s h1 h2 h3; exact ⟨h1, h2, h3⟩
  | cons t rest ih =>
      intro s h1 h2 h3
      have hstep := summaryStep_inv today s t h1 h2 h3
      exact ih (summaryStep today s t) hstep.1 hstep.2.1 hstep.2.2

/-- C2: for a fixed today's date, GetTaskSummary counts each record in a
single pass: appending one record increments the completed count when its
completion flag is true and the open count otherwise; an open record
additionally increments the overdue count iff its due-date string is
non-empty and sorts strictly before today's date string; and each record
increments the bucket keyed by its assignee's display name when an
assignee is present, and the unassigned count otherwise. -/
theorem getTaskSummary_single_pass (today : String) (ts : List Task) (t : Task) :
    (GetTaskSummary today (ts ++ [t])).TotalTasks =
        (GetTaskSummary today ts).TotalTasks + 1 ∧
    (GetTaskSummary today (ts ++ [t])).CompletedTasks =
        (GetTaskSummary today ts).CompletedTasks + (if t.Completed then 1 else 0) ∧
    (GetTaskSummary today (ts ++ [t])).OpenTasks =
        (GetTaskSummary today ts).OpenTasks + (if t.Completed then 0 else 1) ∧
    (GetTaskSummary today (ts ++ [t])).OverdueTasks =
        (GetTaskSummary today ts).OverdueTasks +
          (if !t.Completed && (t.DueOn != "" && strLt t.DueOn today) then 1 else 0) ∧
    (match t.Assignee with
     | some u =>
        getCount (GetTaskSummary today (ts ++ [t])).ByAssignee u.Name =
            getCount (GetTaskSummary today ts).ByAssignee u.Name + 1 ∧
        (GetTaskSummary today (ts ++ [t])).Unassigned =
            (GetTaskSummary today ts).Unassigned
     | none =>
        (GetTaskSummary today (ts ++ [t])).ByAssignee =
            (GetTaskSummary today ts).ByAssignee ∧
        (GetTaskSummary today (ts ++ [t])).Unassigned =
            (GetTaskSummary today ts).Unassigned + 1) := by
  have happ : GetTaskSummary today (ts ++ [t]) =
      summaryStep today (GetTaskSummary today ts) t := by
    simp [GetTaskSummary, List.foldl_append]
  rw [happ]
  unfold summaryStep
  rcases t with ⟨_, _, _, _, compl, _, dueOn, _, _, _, assignee, _, _, _⟩
  cases compl <;> rcases assignee with _ | u <;>
    by_cases hd : (dueOn != "" && strLt dueOn today) = true <;>
      simp [hd, getCount_bump_self]

/-- C3: for every response with status ≥ 400, doRequest returns an error
whose message carries the numeric status code and the first envelope
entry's message when the body parses as an error envelope with at least
one entry, and the status code and the raw body verbatim otherwise; for
status < 400 the body is returned without error. -/
theorem doRequest_error_surface (statusCode : Nat) (respBody : String)
    (errResp : Option (List ApiError)) :
    (∀ e rest, 400 ≤ statusCode → errResp = some (e :: rest) →
      doRequestResult statusCode respBody errResp =
        .error ("API error (" ++ toString statusCode ++ "): " ++ e.Message)) ∧
    (400 ≤ statusCode → (∀ l, errResp = some l → l = []) →
      doRequestResult statusCode respBody errResp =
        .error ("API error (" ++ toString statusCode ++ "): " ++ respBody)) ∧
    (statusCode < 400 → doRequestResult statusCode respBody errResp = .ok respBody) := by
  refine ⟨?_, ?_, ?_⟩
  · intro e rest h400 henv
    subst henv
    simp [doRequestResult, h400]
  · intro h400 hempty
    unfold doRequestResult
    rcases errResp with _ | l
    · simp [h400]
    · rcases l with _ | ⟨e, rest⟩
      · simp [h400]
      · exact absurd (hempty (e :: rest) rfl) (by simp)
  · intro hlt
    unfold doRequestResult
    rw [if_neg (by omega)]

/-- Witness for C3: the envelope case at status 404 surfaces 404 and the
first message, the unparseable case at status 500 surfaces 500 and the
raw body, and status 200 returns the body. -/
theorem doRequest_error_surface_witness :
    doRequestResult 404 "raw" (some [⟨"Not Found", ""⟩]) =
      .error "API error (404): Not Found" ∧
    doRequestResult 500 "Internal Server Error body" none =
      .error "API error (500): Internal Server Error body" ∧
    doRequestResult 200 "payload" none = .ok "payload" := by
  refine ⟨?_, ?_, ?_⟩
  · exact (doRequest_error_surface 404 "raw" (some [⟨"Not Found", ""⟩])).1
      ⟨"Not Found", ""⟩ [] (by decide) rfl
  · exact (doRequest_error_surface 500 "Internal Server Error body" none).2.1
      (by decide) (by simp)
  · exact (doRequest_error_surface 200 "payload" none).2.2 (by decide)

/-- C4: for a fixed now, applyDueFilter maps "today" to an exact due_on
match on now's date, "tomorrow" to an exact due_on match on now plus one
day, "week" to due_on.after = now's date and due_on.before = now plus
seven days, "overdue" to due_on.before = now's date, and any other
literal string unchanged as an exact due_on match, with all computed
dates rendered through formatDate, the embedding of the Go layout
"2006-01-02" (zero-padded YYYY-MM-DD). -/
theorem applyDueFilter_vocabulary (now : Nat) (params : List (String × String)) :
    applyDueFilter now params "today" = setParam params "due_on" (formatDate now) ∧
    applyDueFilter now params "tomorrow" =
      setParam params "due_on" (formatDate (now + 1)) ∧
    applyDueFilter now params "week" =
      setParam (setParam params "due_on.before" (formatDate (now + 7)))
        "due_on.after" (formatDate now) ∧
    applyDueFilter now params "overdue" =
      setParam params "due_on.before" (formatDate now) ∧
    ∀ due : String, due ≠ "today" → due ≠ "tomorrow" → due ≠ "week" → due ≠ "overdue" →
      applyDueFilter now params due = setParam params "due_on" due := by
  refine ⟨rfl, rfl, rfl, rfl, ?_⟩
  intro due h1 h2 h3 h4
  unfold applyDueFilter
  split <;> simp_all

/-- Witness for C4 at day number 739191 (2024-01-01): the keyword cases
and a passed-through literal date. -/
theorem applyDueFilter_vocabulary_witness :
    applyDueFilter 739191 [] "today" = [("due_on", "2024-01-01")] ∧
    applyDueFilter 739191 [] "tomorrow" = [("due_on", "2024-01-02")] ∧
    applyDueFilter 739191 [] "week" =
      [("due_on.before", "2024-01-08"), ("due_on.after", "2024-01-01")] ∧
    applyDueFilter 739191 [] "overdue" = [("due_on.before", "2024-01-01")] ∧
    applyDueFilter 739191 [] "2024-05-01" = [("due_on", "2024-05-01")] := by
  have h := applyDueFilter_vocabulary 739191 []
  exact ⟨h.1, h.2.1, h.2.2.1, h.2.2.2.1,
    h.2.2.2.2 "2024-05-01" (by decide) (by decide) (by decide) (by decide)⟩

/-- Counterexample for C5: the query generated by SearchTasks for the
concrete query "bug fix" with limit 25 contains no is_subtask parameter
at all, refuting the claim that both ListTasks and SearchTasks emit a
subtask-exclusion filter. -/
theorem searchTasks_subtask_cex :
    getParam (searchTasksParams "bug fix" 25) "is_subtask" = none := by decide

/-- C5 (amended): for every options bundle the query generated by
ListTasks contains the explicit subtask-exclusion filter
is_subtask=false; the query generated by SearchTasks contains no
subtask filter. -/
theorem listTasks_subtask_filter (now : Nat) (opts : TaskListOptions)
    (query : String) (limit : Int) :
    getParam (listTasksParams now opts) "is_subtask" = some "false" ∧
    getParam (searchTasksParams query limit) "is_subtask" = none := by
  constructor
  · simp [listTasksParams, getParam_setParam]
  · simp [searchTasksParams, getParam_setParam, getParam,
      apply_ite (fun ps => getParam ps "is_subtask")]

/-- C6: with Assignee = "me", Due = "today", IncludeCompleted = false and
no sort key, the ListTasks query contains assignee.any=me, due_on equal
to today's date and completed=false, and no sort_by or sort_ascending
parameter; in general sort parameters appear iff a sort key was given
and completed=false appears iff IncludeCompleted is false. -/
theorem listTasks_query_spec (now : Nat) (opts : TaskListOptions) :
    (opts.Assignee = "me" → opts.Due = "today" → opts.IncludeCompleted = false →
     opts.SortBy = "" →
      getParam (listTasksParams now opts) "assignee.any" = some "me" ∧
      getParam (listTasksParams now opts) "due_on" = some (formatDate now) ∧
      getParam (listTasksParams now opts) "completed" = some "false" ∧
      getParam (listTasksParams now opts) "sort_by" = none ∧
      getParam (listTasksParams now opts) "sort_ascending" = none) ∧
    getParam (listTasksParams now opts) "sort_by" =
      (if opts.SortBy = "" then none else some opts.SortBy) ∧
    getParam (listTasksParams now opts) "sort_ascending" =
      (if opts.SortBy = "" then none else some "true") ∧
    getParam (listTasksParams now opts) "completed" =
      (if opts.IncludeCompleted then none else some "false") := by
  rcases opts with ⟨proj, asg, tag, due, inc, lim, sort⟩
  refine ⟨?_, ?_, ?_, ?_⟩
  · intro h1 h2 h3 h4
    subst h1; subst h2; subst h3; subst h4
    simp [listTasksParams, applyDueFilter, getParam_setParam, getParam,
      apply_ite (fun ps => getParam ps "assignee.any"),
      apply_ite (fun ps => getParam ps "due_on"),
      apply_ite (fun ps => getParam ps "completed"),
      apply_ite (fun ps => getParam ps "sort_by"),
      apply_ite (fun ps => getParam ps "sort_ascending")]
  · by_cases h : sort = "" <;>
      simp [listTasksParams, h, getParam_setParam, getParam_applyDueFilter_ne, getParam,
        apply_ite (fun ps => getParam ps "sort_by")]
  · by_cases h : sort = "" <;>
      simp [listTasksParams, h, getParam_setParam, getParam_applyDueFilter_ne, getParam,
        apply_ite (fun ps => getParam ps "sort_ascending")]
  · cases inc <;>
      simp [listTasksParams, getParam_setParam, getParam_applyDueFilter_ne, getParam,
        apply_ite (fun ps => getParam ps "completed")]

/-- Witness for C6: the scenario evaluated at day number 739191
(2024-01-01) with the options bundle assignee=me, due=today,
includeCompleted=false, no sort key. -/
theorem listTasks_query_spec_witness :
    getParam (listTasksParams 739191 ⟨"", "me", "", "today", false, 0, ""⟩)
        "assignee.any" = some "me" ∧
    getParam (listTasksParams 739191 ⟨"", "me", "", "today", false, 0, ""⟩)
        "due_on" = some "2024-01-01" ∧
    getParam (listTasksParams 739191 ⟨"", "me", "", "today", false, 0, ""⟩)
        "completed" = some "false" ∧
    getParam (listTasksParams 739191 ⟨"", "me", "", "today", false, 0, ""⟩)
        "sort_by" = none ∧
    getParam (listTasksParams 739191 ⟨"", "me", "", "today", false, 0, ""⟩)
        "sort_ascending" = none :=
  (listTasks_query_spec 739191 ⟨"", "me", "", "today", false, 0, ""⟩).1
    rfl rfl rfl rfl

/-- C7: the ListTasks query always contains a limit parameter equal to
the caller's Limit when Limit > 0 and to 100 otherwise, including when
Limit is zero or negative. -/
theorem listTasks_limit_default (now : Nat) (opts : TaskListOptions) :
    getParam (listTasksParams now opts) "limit" =
      some (if 0 < opts.Limit then toString opts.Limit else "100") := by
  simp only [listTasksParams]
  simp [getParam_setParam, getParam_applyDueFilter_ne,
    apply_ite (fun ps => getParam ps "limit")]
  split <;> rfl

/-- C8: DownloadAttachment fails when the download URL is empty and when
the GET status is ≥ 400, leaving the destination file untouched in both
cases; on status < 400 the body is written to the destination, creating
or truncating it; and the GET request built by http.Client.Get carries
no Authorization header. -/
theorem downloadAttachment_spec (attachment : Attachment) (resp : HttpResponse)
    (dest : Option String) :
    (attachment.DownloadURL = "" →
      DownloadAttachment attachment resp dest =
        ⟨some "attachment has no download URL", dest⟩) ∧
    (attachment.DownloadURL ≠ "" → 400 ≤ resp.statusCode →
      DownloadAttachment attachment resp dest =
        ⟨some ("download failed with status " ++ toString resp.statusCode), dest⟩) ∧
    (attachment.DownloadURL ≠ "" → resp.statusCode < 400 →
      DownloadAttachment attachment resp dest = ⟨none, some resp.body⟩) ∧
    (downloadRequest attachment.DownloadURL).headers = [] := by
  refine ⟨?_, ?_, ?_, rfl⟩
  · intro h; simp [DownloadAttachment, h]
  · intro h h4; simp [DownloadAttachment, h, h4]
  · intro h h4; simp [DownloadAttachment, h]; omega

/-- Witness for C8: a concrete attachment with a URL at statuses 404 and
200, and one with an empty URL; destination state starts as an existing
file in the failing download and as absent otherwise. -/
theorem downloadAttachment_spec_witness :
    DownloadAttachment ⟨"1", "a.txt", "", "", "https://x", "", "", "", 0, none⟩
        ⟨404, "nf"⟩ (some "old") =
      ⟨some "download failed with status 404", some "old"⟩ ∧
    DownloadAttachment ⟨"1", "a.txt", "", "", "", "", "", "", 0, none⟩
        ⟨200, "bytes"⟩ none =
      ⟨some "attachment has no download URL", none⟩ ∧
    DownloadAttachment ⟨"1", "a.txt", "", "", "https://x", "", "", "", 0, none⟩
        ⟨200, "bytes"⟩ none =
      ⟨none, some "bytes"⟩ := by
  refine ⟨?_, ?_, ?_⟩
  · exact (downloadAttachment_spec ⟨"1", "a.txt", "", "", "https://x", "", "", "", 0, none⟩
      ⟨404, "nf"⟩ (some "old")).2.1 (by decide) (by decide)
  · exact (downloadAttachment_spec ⟨"1", "a.txt", "", "", "", "", "", "", 0, none⟩
      ⟨200, "bytes"⟩ none).1 rfl
  · exact (downloadAttachment_spec ⟨"1", "a.txt", "", "", "https://x", "", "", "", 0, none⟩
      ⟨200, "bytes"⟩ none).2.2.1 (by decide) (by decide)

/-- C9: CompleteTask is exactly UpdateTask with only the Completed field
set to true and ReopenTask is exactly UpdateTask with only the Completed
field set to false; they produce the same request, whose payload sets
only the completed attribute. -/
theorem completeTask_reopenTask_refine (taskGID : String) :
    CompleteTaskRequest taskGID =
      UpdateTaskRequest taskGID ⟨none, none, none, none, some true⟩ ∧
    ReopenTaskRequest taskGID =
      UpdateTaskRequest taskGID ⟨none, none, none, none, some false⟩ ∧
    (CompleteTaskRequest taskGID).payload =
      "\x7b\"data\":\x7b\"completed\":true\x7d\x7d" ∧
    (ReopenTaskRequest taskGID).payload =
      "\x7b\"data\":\x7b\"completed\":false\x7d\x7d" :=
  ⟨rfl, rfl, rfl, rfl⟩

/-- C10: the data object of the UpdateTask payload contains the key of an
updatable field iff the corresponding option is set; with every option
unset the serialized payload is the empty update. -/
theorem updateTask_payload_frame (opts : UpdateTaskOptions) :
    hasKey (updateTaskData opts) "name" = opts.Name.isSome ∧
    hasKey (updateTaskData opts) "notes" = opts.Notes.isSome ∧
    hasKey (updateTaskData opts) "assignee" = opts.Assignee.isSome ∧
    hasKey (updateTaskData opts) "due_on" = opts.DueOn.isSome ∧
    hasKey (updateTaskData opts) "completed" = opts.Completed.isSome ∧
    updateTaskPayload ⟨none, none, none, none, none⟩ = "\x7b\"data\":\x7b\x7d\x7d" := by
  have h5 : hasKey (updateTaskData opts) "name" = opts.Name.isSome ∧
      hasKey (updateTaskData opts) "notes" = opts.Notes.isSome ∧
      hasKey (updateTaskData opts) "assignee" = opts.Assignee.isSome ∧
      hasKey (updateTaskData opts) "due_on" = opts.DueOn.isSome ∧
      hasKey (updateTaskData opts) "completed" = opts.Completed.isSome := by
    rcases opts with ⟨n, o, a, d, c⟩
    cases n <;> cases o <;> cases a <;> cases d <;> cases c <;>
      simp [updateTaskData, hasKey]
  exact ⟨h5.1, h5.2.1, h5.2.2.1, h5.2.2.2.1, h5.2.2.2.2, by decide⟩

end Asana
